import Mathlib

/-!
# Verification of the release-publishing script (`PUBLISH.py`)

Shallow embedding of the version-bookkeeping logic of the repository's
publish script.  Python strings are modelled as `List Char` (`PyStr`), the
config file as `Option (List PyStr)` (absent, or a list of raw lines as
produced by `readlines`, each line keeping its trailing newline when it has
one).  The two regexes of the script,

* write side: `^\s*version:\s*`
* read  side: `^\s*version:\s*(.+?)\s*$`

are translated into explicit list functions: the write regex matches a line
exactly when the line with its leading whitespace removed starts with
`version:`; the read regex (with `.` not matching a newline and `$`
accepting a position just before a trailing newline) matches exactly when
the text after `version:`, with a trailing newline removed, is nonempty,
and the captured group is that text trimmed of surrounding whitespace.
-/

namespace Publish

/-- A Python string, modelled as its list of characters. -/
abbrev PyStr := List Char

/-- Characters treated as whitespace by Python's `str.strip` and by `\s`
in the script's regexes (ASCII fragment). -/
def pyIsSpace (c : Char) : Bool :=
  c == ' ' || c == '\t' || c == '\n' || c == '\r' || c == '\x0b' || c == '\x0c'

/-- `s.lstrip` restricted to the characters accepted by `p`. -/
def lstripWith (p : Char → Bool) (s : PyStr) : PyStr := s.dropWhile p

/-- `s.rstrip` restricted to the characters accepted by `p`. -/
def rstripWith (p : Char → Bool) (s : PyStr) : PyStr :=
  (s.reverse.dropWhile p).reverse

/-- Strip characters accepted by `p` from both ends. -/
def stripWith (p : Char → Bool) (s : PyStr) : PyStr := rstripWith p (lstripWith p s)

/-- Python `s.strip()`. -/
def pyStrip (s : PyStr) : PyStr := stripWith pyIsSpace s

/-- Python `s.strip(c)` for a single character `c`. -/
def stripQuote (c : Char) (s : PyStr) : PyStr := stripWith (· == c) s

/-- `strip_v` from the script: `tag.lstrip("v").strip()`. -/
def strip_v (tag : PyStr) : PyStr := pyStrip (lstripWith (· == 'v') tag)

/-- The literal `version:` key the two regexes look for. -/
def versionKey : PyStr := ['v', 'e', 'r', 's', 'i', 'o', 'n', ':']

/-- A line matches the write-side regex `^\s*version:\s*`. -/
def writeMatch (line : PyStr) : Bool :=
  versionKey.isPrefixOf (lstripWith pyIsSpace line)

/-- The leading-whitespace capture `^(\s*)` used to preserve indentation. -/
def indentOf (line : PyStr) : PyStr := line.takeWhile pyIsSpace

/-- Remove one trailing newline, as `$` in `re.match` ignores it. -/
def dropTrailingNl (s : PyStr) : PyStr :=
  if s.getLast? = some '\n' then s.dropLast else s

/-- The read-side regex `^\s*version:\s*(.+?)\s*$` applied to one raw line,
followed by the script's `.strip().strip('"').strip("'")` post-processing;
`none` when the line does not match. -/
def readCore (rest : PyStr) : Option PyStr :=
  if (dropTrailingNl rest).isEmpty then none
  else some (stripQuote '\'' (stripQuote '"' (pyStrip (dropTrailingNl rest))))

def readValue? (line : PyStr) : Option PyStr :=
  if versionKey.isPrefixOf (lstripWith pyIsSpace line) then
    readCore ((lstripWith pyIsSpace line).drop 8)
  else none

/-- The scanning loop of `detect_config_version`: first matching line wins. -/
def detectLines : List PyStr → PyStr
  | [] => []
  | l :: ls =>
    match readValue? l with
    | some v => v
    | none => detectLines ls

/-- `detect_config_version()`: empty string when the config file is absent,
otherwise the value of the first line matching the read regex. -/
def detect_config_version (fs : Option (List PyStr)) : PyStr :=
  match fs with
  | none => []
  | some lines => detectLines lines

/-- The replacement line `f"{indent}version: {version_no_v}\n"`. -/
def versionLine (indent : PyStr) (v : PyStr) : PyStr :=
  indent ++ (versionKey ++ ((' ' :: v) ++ ['\n']))

/-- The rewrite loop of `write_config_version`: replace the first line
matching the write regex (keeping its indentation), copy everything else,
and append a fresh `version:` line when nothing matched. -/
def replaceVersion (v : PyStr) : List PyStr → List PyStr
  | [] => [versionLine [] v]
  | l :: ls =>
    if writeMatch l then versionLine (indentOf l) v :: ls
    else l :: replaceVersion v ls

/-- The one error `write_config_version` can raise. -/
inductive PubError
  | fileNotFound
deriving DecidableEq, Repr

/-- `write_config_version(version_no_v, dry)`: raises `FileNotFoundError`
when the config file is absent (checked before the `dry` flag), otherwise
returns the resulting file state (unchanged in dry mode). -/
def write_config_version (fs : Option (List PyStr)) (v : PyStr) (dry : Bool) :
    Except PubError (Option (List PyStr)) :=
  match fs with
  | none => .error .fileNotFound
  | some lines =>
    if dry then .ok (some lines)
    else .ok (some (replaceVersion v lines))

/-- The JSON payload of the `releases/latest` endpoint, as far as the
script reads it: a `dict.get` on `tag_name` and `body`. -/
structure ReleaseData where
  tag_name : Option PyStr
  body : Option PyStr

/-- The possible outcomes of the HTTP request inside
`fetch_latest_release`: a parsed payload, an `HTTPError`, or any other
exception (network error, JSON parse failure, timeout, ...). -/
inductive FetchOutcome
  | success (d : ReleaseData)
  | httpError
  | otherError

/-- `tag.startswith("v")`. -/
def startsWithV : PyStr → Bool
  | [] => false
  | c :: _ => c == 'v'

/-- Tag normalisation inside `fetch_latest_release`: prepend `v` unless
already present. -/
def normTag (t : PyStr) : PyStr := if startsWithV t then t else 'v' :: t

/-- `fetch_latest_release(owner, repo)`: on success it normalises the tag
to carry a leading `v` and returns `(tag, body)`; on any caught exception,
including the `ValueError` it raises itself on a missing/empty `tag_name`,
it returns `(None, None)`.  The function is total: no outcome escapes it. -/
def fetch_latest_release : FetchOutcome → Option PyStr × Option PyStr
  | .httpError => (none, none)
  | .otherError => (none, none)
  | .success d =>
    if (d.tag_name.getD []).isEmpty then (none, none)
    else (some (normTag (d.tag_name.getD [])), some (d.body.getD []))

/-- Numeric value of a decimal digit. -/
def digitVal (c : Char) : Nat := c.toNat - '0'.toNat

/-- Digit-string loop of Python `int`: digits, with single underscores
allowed between digits. -/
def pyIntGo (acc : Nat) : List Char → Option Nat
  | [] => some acc
  | '_' :: rest =>
    match rest with
    | d :: rest' => if d.isDigit then pyIntGo (acc * 10 + digitVal d) rest' else none
    | [] => none
  | d :: rest => if d.isDigit then pyIntGo (acc * 10 + digitVal d) rest else none

/-- Unsigned part of Python `int`: at least one digit required. -/
def pyIntCore : List Char → Option Nat
  | [] => none
  | d :: rest => if d.isDigit then pyIntGo (digitVal d) rest else none

/-- Python `int(s)` on a decimal string: surrounding whitespace allowed,
optional sign, then digits; `none` models the `ValueError`. -/
def pyInt (s : PyStr) : Option Int :=
  match pyStrip s with
  | '+' :: r => (pyIntCore r).map Int.ofNat
  | '-' :: r => (pyIntCore r).map (fun n => -(Int.ofNat n))
  | r => (pyIntCore r).map Int.ofNat

/-- Python `s.split(".")`: split at every dot, keeping empty pieces. -/
def pySplitDot : PyStr → List PyStr
  | [] => [[]]
  | c :: cs =>
    match pySplitDot cs with
    | [] => [[c]]
    | p :: ps => if c = '.' then [] :: p :: ps else (c :: p) :: ps

/-- Rendering of the suffix counter, `f"...{n}"`. -/
def intToPyStr (n : Int) : PyStr := (toString n).data

/-- `auto_version()`, abstracted over `today` (the `%Y.%m.%d` date string)
and `cur` (the stored config version): `today.N` where `N` is the previous
suffix plus one when `cur` starts with today (2 when the suffix is not an
integer), else 1. -/
def autoSuffix (today cur : PyStr) : Int :=
  if today.isPrefixOf cur then
    match pyInt ((pySplitDot cur).getLastD []) with
    | some k => k + 1
    | none => 2
  else 1

def auto_version (today cur : PyStr) : PyStr :=
  today ++ '.' :: intToPyStr (autoSuffix today cur)

/-- Python `a or b` on strings. -/
def pyOrS (a b : PyStr) : PyStr := if a.isEmpty then b else a

/-- The command-line arguments that influence version resolution:
`--version` (absent or a token) and `--notes` (defaults to `""`). -/
structure Args where
  version : Option PyStr
  notes : PyStr

/-- Outcome of step 1 of `main`: whether `fetch_latest_release` was
invoked, and the resolved `version_no_v`, `tag_with_v` and `notes`. -/
structure Resolution where
  fetchInvoked : Bool
  version_no_v : PyStr
  tag_with_v : PyStr
  notes : PyStr
deriving DecidableEq, Repr

/-- `f"# {tag}\n\nManual release."`. -/
def manualNotes (tag : PyStr) : PyStr :=
  ['#', ' '] ++ tag ++ "\n\nManual release.".data

/-- `f"# {tag}\n"`. -/
def remoteNotes (tag : PyStr) : PyStr := ['#', ' '] ++ tag ++ ['\n']

/-- `f"# {tag}\n\nAuto fallback (no releases in repo)."`. -/
def fallbackNotes (tag : PyStr) : PyStr :=
  ['#', ' '] ++ tag ++ "\n\nAuto fallback (no releases in repo).".data

/-- The `else` branch of `main`'s source selection: query the release
registry, use its tag when truthy, otherwise fall back to the auto
version. -/
def fallbackRes (notes autoV : PyStr) : Resolution :=
  ⟨true, autoV, 'v' :: autoV, pyOrS notes (fallbackNotes ('v' :: autoV))⟩

def remotePath (args : Args) (outcome : FetchOutcome) (autoV : PyStr) : Resolution :=
  match fetch_latest_release outcome with
  | (some t, b) =>
    if t.isEmpty then fallbackRes args.notes autoV
    else ⟨true, strip_v t, t, pyOrS args.notes (pyOrS (b.getD []) (remoteNotes t))⟩
  | (none, _) => fallbackRes args.notes autoV

/-- The explicit-source branch of `main`: `version_no_v` is the processed
token, the tag prepends `v`, notes default to the manual-release text. -/
def explicitRes (notes v : PyStr) : Resolution :=
  ⟨false, v, 'v' :: v, pyOrS notes (manualNotes ('v' :: v))⟩

/-- Step 1 of `main`: `if args.version:` (Python truthiness, so an empty
token falls through) takes the explicit source, replacing the `"auto"`
sentinel by the auto-generated version; otherwise the remote/fallback
path. -/
def resolveVersion (args : Args) (outcome : FetchOutcome) (autoV : PyStr) : Resolution :=
  match args.version with
  | some s =>
    if s.isEmpty then remotePath args outcome autoV
    else explicitRes args.notes (if s = "auto".data then autoV else s)
  | none => remotePath args outcome autoV

/-! ## Helper lemmas -/

lemma dropWhile_eq_self_of_all (p : Char → Bool) (l : PyStr)
    (h : ∀ c ∈ l, p c = false) : l.dropWhile p = l := by
  cases l with
  | nil => rfl
  | cons a as =>
    exact List.dropWhile_cons_of_neg (by simp [h a (List.mem_cons_self a as)])

lemma pyStrip_eq_self_of_all (l : PyStr)
    (h : ∀ c ∈ l, pyIsSpace c = false) : pyStrip l = l := by
  unfold pyStrip stripWith lstripWith rstripWith
  rw [dropWhile_eq_self_of_all _ _ h,
    dropWhile_eq_self_of_all _ _ (fun c hc => h c (List.mem_reverse.mp hc)),
    List.reverse_reverse]

lemma startsWithV_strip_v_eq_false (l : PyStr)
    (h : ∀ c ∈ l, pyIsSpace c = false) : startsWithV (strip_v l) = false := by
  unfold strip_v lstripWith
  rw [pyStrip_eq_self_of_all _
    (fun c hc => h c (List.dropWhile_subset _ hc))]
  cases hd : l.dropWhile (· == 'v') with
  | nil => rfl
  | cons c cs =>
    have hnotv := List.head?_dropWhile_not (fun x => x == 'v') l
    rw [hd] at hnotv
    simp only [List.head?_cons] at hnotv
    simpa [startsWithV] using hnotv

lemma readValue?_eq_none_of_not_match (l : PyStr)
    (h : writeMatch l = false) : readValue? l = none := by
  unfold readValue?
  unfold writeMatch at h
  simp [h]

lemma detectLines_append_of_no_match (pre rest : List PyStr)
    (h : ∀ x ∈ pre, writeMatch x = false) :
    detectLines (pre ++ rest) = detectLines rest := by
  induction pre with
  | nil => rfl
  | cons l ls ih =>
    have hl := readValue?_eq_none_of_not_match l (h l (List.mem_cons_self l ls))
    simp only [List.cons_append, detectLines, hl]
    exact ih (fun x hx => h x (List.mem_cons_of_mem l hx))

lemma replaceVersion_append_no_match (v : PyStr) (pre rest : List PyStr)
    (h : ∀ x ∈ pre, writeMatch x = false) :
    replaceVersion v (pre ++ rest) = pre ++ replaceVersion v rest := by
  induction pre with
  | nil => rfl
  | cons l ls ih =>
    have hl : writeMatch l = false := h l (List.mem_cons_self l ls)
    simp only [List.cons_append, replaceVersion, List.append_eq]
    rw [if_neg (by simp [hl]), ih (fun x hx => h x (List.mem_cons_of_mem l hx))]

lemma replaceVersion_of_no_match (v : PyStr) (lines : List PyStr)
    (h : ∀ x ∈ lines, writeMatch x = false) :
    replaceVersion v lines = lines ++ [versionLine [] v] := by
  have := replaceVersion_append_no_match v lines [] h
  simpa using this

lemma replaceVersion_first (v : PyStr) (pre : List PyStr) (l : PyStr)
    (post : List PyStr) (hpre : ∀ x ∈ pre, writeMatch x = false)
    (hl : writeMatch l = true) :
    replaceVersion v (pre ++ l :: post) =
      pre ++ versionLine (indentOf l) v :: post := by
  rw [replaceVersion_append_no_match v pre (l :: post) hpre]
  simp [replaceVersion, hl]

lemma indentOf_all_space (l : PyStr) : ∀ c ∈ indentOf l, pyIsSpace c = true :=
  fun _ hc => List.mem_takeWhile_imp hc

lemma versionKey_isPrefixOf_append (rest : PyStr) :
    versionKey.isPrefixOf (versionKey ++ rest) = true := by
  rw [List.isPrefixOf_iff_prefix]
  exact List.prefix_append _ _

lemma readValue?_versionLine (ind v : PyStr)
    (hind : ∀ c ∈ ind, pyIsSpace c = true)
    (hv1 : v.dropWhile pyIsSpace = v)
    (hv2 : (v.reverse.dropWhile pyIsSpace).reverse = v)
    (hq : stripQuote '\'' (stripQuote '"' v) = v) :
    readValue? (versionLine ind v) = some v := by
  have hlift : lstripWith pyIsSpace (versionLine ind v) =
      versionKey ++ ((' ' :: v) ++ ['\n']) := by
    unfold versionLine lstripWith
    rw [List.dropWhile_append_of_pos hind]
    rw [show versionKey ++ ((' ' :: v) ++ ['\n']) =
      'v' :: (['e', 'r', 's', 'i', 'o', 'n', ':'] ++ ((' ' :: v) ++ ['\n'])) from rfl]
    exact List.dropWhile_cons_of_neg (by decide)
  have hdrop : (versionKey ++ ((' ' :: v) ++ ['\n'])).drop 8 = (' ' :: v) ++ ['\n'] :=
    List.drop_left' (show versionKey.length = 8 from rfl)
  have hdt : dropTrailingNl ((' ' :: v) ++ ['\n']) = ' ' :: v := by
    unfold dropTrailingNl
    rw [List.getLast?_concat, if_pos rfl, List.dropLast_concat]
  have hstrip : pyStrip (' ' :: v) = v := by
    unfold pyStrip stripWith lstripWith rstripWith
    rw [List.dropWhile_cons_of_pos (by decide), hv1, hv2]
  unfold readValue?
  rw [hlift, versionKey_isPrefixOf_append, if_pos rfl, hdrop]
  unfold readCore
  rw [hdt, if_neg (by simp), hstrip, hq]

/-- An outcome on which the script's `try` block fails: an HTTP error, any
other exception, or a payload whose `tag_name` is missing or empty (the
`raise ValueError` path, caught by the same handler). -/
def fetchFailed : FetchOutcome → Bool
  | .httpError => true
  | .otherError => true
  | .success d => (d.tag_name.getD []).isEmpty

/-! ## Claim theorems -/

/-- C4: `auto_version` returns `2024.01.01.2` for stored version
`2024.01.01.1` on `2024.01.01`, returns `2024.01.01.1` for stored version
`2023.12.31.5` on that date, and whenever the stored version starts with
today's date but its final dot-separated component is not parseable as an
integer, the suffix defaults to `2`. -/
theorem auto_version_spec (today cur : PyStr)
    (hpref : today.isPrefixOf cur = true)
    (hbad : pyInt ((pySplitDot cur).getLastD []) = none) :
    auto_version today cur = today ++ '.' :: ['2'] ∧
    auto_version "2024.01.01".data "2024.01.01.1".data = "2024.01.01.2".data ∧
    auto_version "2024.01.01".data "2023.12.31.5".data = "2024.01.01.1".data := by
  refine ⟨?_, by decide, by decide⟩
  unfold auto_version autoSuffix
  rw [if_pos hpref, hbad]
  rfl

/-- C4 witness: the general part evaluated at today `2024.01.01` and stored
version `2024.01.01.x`, whose suffix `x` is not an integer. -/
theorem auto_version_spec_witness :
    auto_version "2024.01.01".data "2024.01.01.x".data = "2024.01.01".data ++ '.' :: ['2'] ∧
    auto_version "2024.01.01".data "2024.01.01.1".data = "2024.01.01.2".data ∧
    auto_version "2024.01.01".data "2023.12.31.5".data = "2024.01.01.1".data :=
  auto_version_spec "2024.01.01".data "2024.01.01.x".data (by decide) (by decide)

/-- C5: on every failing outcome of the release request — HTTP error
(including 404), any other exception, or a payload with a missing/empty
tag — `fetch_latest_release` returns `(None, None)` (it is a total
function, so nothing escapes to the caller), and the resolver's remote
path degrades to the auto-fallback result. -/
theorem fetch_latest_release_failure (args : Args) (o : FetchOutcome) (autoV : PyStr)
    (h : fetchFailed o = true) :
    fetch_latest_release o = (none, none) ∧
    remotePath args o autoV = fallbackRes args.notes autoV := by
  have hfetch : fetch_latest_release o = (none, none) := by
    cases o with
    | httpError => rfl
    | otherError => rfl
    | success d =>
      simp only [fetchFailed] at h
      simp only [fetch_latest_release]
      rw [if_pos h]
  refine ⟨hfetch, ?_⟩
  unfold remotePath
  rw [hfetch]

/-- C5 witness: the HTTP-error outcome. -/
theorem fetch_latest_release_failure_witness :
    fetch_latest_release .httpError = (none, none) ∧
    remotePath ⟨none, []⟩ .httpError "2024.01.01.1".data =
      fallbackRes (Args.notes ⟨none, []⟩) "2024.01.01.1".data :=
  fetch_latest_release_failure ⟨none, []⟩ .httpError "2024.01.01.1".data rfl

/-- C6: on a config document with no `version:` line,
`write_config_version` produces exactly the input lines, unchanged and in
order, followed by one appended (unindented) version line. -/
theorem write_config_version_append (lines : List PyStr) (v : PyStr)
    (h : ∀ x ∈ lines, writeMatch x = false) :
    write_config_version (some lines) v false =
      .ok (some (lines ++ [versionLine [] v])) := by
  simp only [write_config_version, Bool.false_eq_true, if_false]
  rw [replaceVersion_of_no_match v lines h]

/-- C6 witness: a one-line document without a version line. -/
theorem write_config_version_append_witness :
    write_config_version (some ["name: x\n".data]) "1.0".data false =
      .ok (some (["name: x\n".data] ++ [versionLine [] "1.0".data])) :=
  write_config_version_append ["name: x\n".data] "1.0".data (by decide)

/-- C8: on a config document whose first `version:` match is followed by at
least one more matching line, `write_config_version` rewrites only that
first match (preserving its indentation) and copies every earlier
non-matching line, every later duplicate, and every unrelated line verbatim
and in order. -/
theorem write_config_version_first_match_only (pre : List PyStr) (l : PyStr)
    (post : List PyStr) (v : PyStr)
    (hpre : ∀ x ∈ pre, writeMatch x = false)
    (hl : writeMatch l = true)
    (hdup : ∃ x ∈ post, writeMatch x = true) :
    write_config_version (some (pre ++ l :: post)) v false =
      .ok (some (pre ++ versionLine (indentOf l) v :: post)) := by
  simp only [write_config_version, Bool.false_eq_true, if_false]
  rw [replaceVersion_first v pre l post hpre hl]

/-- C8 witness: a document with an indented first version line and a later
duplicate. -/
theorem write_config_version_first_match_only_witness :
    write_config_version
        (some (["a: 1\n".data] ++ "  version: 1\n".data :: ["version: 2\n".data]))
        "9".data false =
      .ok (some (["a: 1\n".data] ++
        versionLine (indentOf "  version: 1\n".data) "9".data :: ["version: 2\n".data])) :=
  write_config_version_first_match_only ["a: 1\n".data] "  version: 1\n".data
    ["version: 2\n".data] "9".data (by decide) (by decide)
    ⟨"version: 2\n".data, by decide⟩

/-- C7: `write_config_version` fails with the file-not-found error exactly
when the config file is absent (whether or not `dry` is set), while
`detect_config_version` on an absent file returns the empty string. -/
theorem write_fails_iff_absent (fs : Option (List PyStr)) (v : PyStr) (dry : Bool) :
    (write_config_version fs v dry = .error .fileNotFound ↔ fs = none) ∧
    detect_config_version none = [] := by
  refine ⟨?_, rfl⟩
  cases fs with
  | none => simp [write_config_version]
  | some lines => cases dry <;> simp [write_config_version]

/-- C10: in dry-run mode `write_config_version` still fails on an absent
config file — the existence check precedes the `dry` check, so dry-run does
not make the missing-config failure path unreachable. -/
theorem write_dry_run_still_fails (v : PyStr) :
    write_config_version none v true = .error .fileNotFound := rfl


/-- C1 counterexample: for `V = "2"` (with literal double quotes) on a
document with a version line, write-then-read returns `2`, not `V` — the
reader strips surrounding quote characters. -/
theorem write_then_read_counterexample :
    write_config_version (some ["version: 1\n".data]) "\"2\"".data false =
      .ok (some ["version: \"2\"\n".data]) ∧
    detect_config_version (some ["version: \"2\"\n".data]) = "2".data ∧
    "2".data ≠ "\"2\"".data := by
  refine ⟨rfl, rfl, by decide⟩

/-- C1 (amended): for every config document with at least one line matching
the version regex, and every version string `V` that is newline-free,
carries no surrounding whitespace and no surrounding quote characters,
writing `V` and then reading returns exactly `V`, and every non-version
line of the resulting document is byte-identical to the corresponding
input line. -/
theorem write_then_read_roundtrip (pre : List PyStr) (l : PyStr)
    (post : List PyStr) (v : PyStr)
    (hpre : ∀ x ∈ pre, writeMatch x = false)
    (hl : writeMatch l = true)
    (hv1 : v.dropWhile pyIsSpace = v)
    (hv2 : (v.reverse.dropWhile pyIsSpace).reverse = v)
    (hnl : '\n' ∉ v)
    (hq : stripQuote '\'' (stripQuote '"' v) = v) :
    write_config_version (some (pre ++ l :: post)) v false =
      .ok (some (pre ++ versionLine (indentOf l) v :: post)) ∧
    detect_config_version (some (pre ++ versionLine (indentOf l) v :: post)) = v := by
  constructor
  · simp only [write_config_version, Bool.false_eq_true, if_false]
    rw [replaceVersion_first v pre l post hpre hl]
  · show detectLines (pre ++ versionLine (indentOf l) v :: post) = v
    rw [detectLines_append_of_no_match pre _ hpre]
    simp only [detectLines,
      readValue?_versionLine (indentOf l) v (indentOf_all_space l) hv1 hv2 hq]

/-- C1 witness: a two-line document and the clean version `2.0`. -/
theorem write_then_read_roundtrip_witness :
    write_config_version (some (["name: x\n".data] ++ "version: 1\n".data :: [])) "2.0".data false =
      .ok (some (["name: x\n".data] ++ versionLine (indentOf "version: 1\n".data) "2.0".data :: [])) ∧
    detect_config_version
        (some (["name: x\n".data] ++ versionLine (indentOf "version: 1\n".data) "2.0".data :: [])) =
      "2.0".data :=
  write_then_read_roundtrip ["name: x\n".data] "version: 1\n".data [] "2.0".data
    (by decide) (by decide) (by decide) (by decide) (by decide) (by decide)

lemma remotePath_fetchInvoked (args : Args) (o : FetchOutcome) (autoV : PyStr) :
    (remotePath args o autoV).fetchInvoked = true := by
  cases o with
  | httpError => rfl
  | otherError => rfl
  | success d =>
    simp only [remotePath, fetch_latest_release]
    by_cases h1 : (d.tag_name.getD []).isEmpty
    · rw [if_pos h1]
      rfl
    · rw [if_neg h1]
      by_cases h2 : (normTag (d.tag_name.getD [])).isEmpty
      · simp only [h2, if_true]
        rfl
      · simp only [h2, Bool.false_eq_true, if_false]

/-- C9: supplying `--version` with the empty string behaves exactly like
omitting `--version`: the resolver result is identical, and the remote
release query is invoked. -/
theorem empty_version_like_omitted (notes : PyStr) (o : FetchOutcome) (autoV : PyStr) :
    resolveVersion ⟨some [], notes⟩ o autoV = resolveVersion ⟨none, notes⟩ o autoV ∧
    (resolveVersion ⟨some [], notes⟩ o autoV).fetchInvoked = true := by
  have h3 : remotePath ⟨some [], notes⟩ o autoV = remotePath ⟨none, notes⟩ o autoV := rfl
  exact ⟨h3, remotePath_fetchInvoked ⟨some [], notes⟩ o autoV⟩

/-- C3 counterexample: with `--version` present but equal to the empty
string, the remote release query is invoked, contradicting the claim that
it is never invoked when the flag is present with any value. -/
theorem explicit_version_counterexample :
    (resolveVersion ⟨some [], []⟩ .httpError "2024.01.01.1".data).fetchInvoked = true := rfl

/-- C3 (amended): whenever `--version` is present with a nonempty value,
the remote release query is never invoked, and the effective version is the
supplied token, except that the literal sentinel `auto` is replaced by the
auto-generated version (the empty token instead falls through to the remote
path, as Python truthiness treats it like an absent flag). -/
theorem explicit_version_skips_remote (args : Args) (o : FetchOutcome)
    (autoV s : PyStr) (hs : args.version = some s) (hne : s ≠ []) :
    (resolveVersion args o autoV).fetchInvoked = false ∧
    (resolveVersion args o autoV).version_no_v =
      (if s = "auto".data then autoV else s) := by
  have hse : s.isEmpty = false := by
    cases s with
    | nil => exact absurd rfl hne
    | cons c cs => rfl
  simp only [resolveVersion, hs, hse, Bool.false_eq_true, if_false]
  exact ⟨rfl, rfl⟩

/-- C3 witness: the explicit token `1.2`. -/
theorem explicit_version_skips_remote_witness :
    (resolveVersion ⟨some "1.2".data, []⟩ .httpError "A".data).fetchInvoked = false ∧
    (resolveVersion ⟨some "1.2".data, []⟩ .httpError "A".data).version_no_v =
      (if "1.2".data = "auto".data then "A".data else "1.2".data) :=
  explicit_version_skips_remote ⟨some "1.2".data, []⟩ .httpError "A".data "1.2".data
    rfl (by decide)

lemma remotePath_tag_and_version (args : Args) (o : FetchOutcome) (autoV : PyStr)
    (hauto : startsWithV autoV = false)
    (htag : ∀ d t, o = .success d → d.tag_name = some t → ∀ c ∈ t, pyIsSpace c = false) :
    startsWithV (remotePath args o autoV).tag_with_v = true ∧
    startsWithV (remotePath args o autoV).version_no_v = false := by
  cases o with
  | httpError => exact ⟨rfl, hauto⟩
  | otherError => exact ⟨rfl, hauto⟩
  | success d =>
    have ht0ws : ∀ c ∈ d.tag_name.getD [], pyIsSpace c = false := by
      cases htn : d.tag_name with
      | none => intro c hc; simp at hc
      | some t =>
        intro c hc
        exact htag d t rfl htn c (by simpa using hc)
    have hnormws : ∀ c ∈ normTag (d.tag_name.getD []), pyIsSpace c = false := by
      intro c hc
      unfold normTag at hc
      by_cases hsv : startsWithV (d.tag_name.getD []) = true
      · rw [if_pos hsv] at hc
        exact ht0ws c hc
      · rw [if_neg hsv] at hc
        rcases List.mem_cons.mp hc with h | h
        · subst h; rfl
        · exact ht0ws c h
    have hnv : startsWithV (normTag (d.tag_name.getD [])) = true := by
      unfold normTag
      by_cases hsv : startsWithV (d.tag_name.getD []) = true
      · rw [if_pos hsv]; exact hsv
      · rw [if_neg hsv]; rfl
    simp only [remotePath, fetch_latest_release]
    by_cases h1 : (d.tag_name.getD []).isEmpty
    · rw [if_pos h1]
      exact ⟨rfl, hauto⟩
    · rw [if_neg h1]
      have h2 : (normTag (d.tag_name.getD [])).isEmpty = false := by
        unfold normTag
        by_cases hsv : startsWithV (d.tag_name.getD []) = true
        · rw [if_pos hsv]
          simpa using h1
        · rw [if_neg hsv]; rfl
      simp only [h2, Bool.false_eq_true, if_false]
      exact ⟨hnv, startsWithV_strip_v_eq_false _ hnormws⟩

/-- C2 counterexample: an explicit `--version v1.2.3` is written to the
config verbatim, with its leading `v`; likewise a remote tag with internal
whitespace (`v v1`) yields a stored version starting with `v`. -/
theorem version_prefix_counterexample :
    (resolveVersion ⟨some "v1.2.3".data, []⟩ .httpError "2024.01.01.1".data).version_no_v =
      "v1.2.3".data ∧
    startsWithV "v1.2.3".data = true ∧
    (resolveVersion ⟨none, []⟩ (.success ⟨some "v v1".data, some []⟩)
        "2024.01.01.1".data).version_no_v = "v1".data ∧
    startsWithV "v1".data = true := by
  refine ⟨rfl, rfl, by decide, rfl⟩

lemma remotePath_tag_startsWithV (args : Args) (o : FetchOutcome) (autoV : PyStr) :
    startsWithV (remotePath args o autoV).tag_with_v = true := by
  cases o with
  | httpError => rfl
  | otherError => rfl
  | success d =>
    simp only [remotePath, fetch_latest_release]
    by_cases h1 : (d.tag_name.getD []).isEmpty
    · rw [if_pos h1]
      rfl
    · rw [if_neg h1]
      by_cases h2 : (normTag (d.tag_name.getD [])).isEmpty
      · simp only [h2, if_true]
        rfl
      · simp only [h2, Bool.false_eq_true, if_false]
        show startsWithV (normTag (d.tag_name.getD [])) = true
        unfold normTag
        by_cases hsv : startsWithV (d.tag_name.getD []) = true
        · rw [if_pos hsv]; exact hsv
        · rw [if_neg hsv]; rfl

lemma resolveVersion_tag_startsWithV (args : Args) (o : FetchOutcome) (autoV : PyStr) :
    startsWithV (resolveVersion args o autoV).tag_with_v = true := by
  cases hv : args.version with
  | none =>
    simp only [resolveVersion, hv]
    exact remotePath_tag_startsWithV args o autoV
  | some s =>
    simp only [resolveVersion, hv]
    by_cases hse : s.isEmpty
    · rw [if_pos hse]
      exact remotePath_tag_startsWithV args o autoV
    · rw [if_neg hse]
      rfl

/-- C2 (amended): the tag handed to the tag-creation step always starts
with `v` — unconditionally, for every argument vector and every remote
outcome, since all three sources guarantee it; the version written to the
config never starts with `v` provided the explicit token, when present,
does not itself start with `v`, the auto-generated version does not start
with `v`, and any remote tag contains no whitespace (an explicit token is
used verbatim, so a `v`-prefixed token reaches the config unchanged). -/
theorem version_prefix_invariant (args : Args) (o : FetchOutcome) (autoV : PyStr)
    (hexp : ∀ s, args.version = some s → startsWithV s = false)
    (hauto : startsWithV autoV = false)
    (htag : ∀ d t, o = .success d → d.tag_name = some t → ∀ c ∈ t, pyIsSpace c = false) :
    (∀ (a : Args) (o' : FetchOutcome) (av : PyStr),
      startsWithV (resolveVersion a o' av).tag_with_v = true) ∧
    startsWithV (resolveVersion args o autoV).version_no_v = false := by
  refine ⟨fun a o' av => resolveVersion_tag_startsWithV a o' av, ?_⟩
  cases hv : args.version with
  | none =>
    simp only [resolveVersion, hv]
    exact (remotePath_tag_and_version args o autoV hauto htag).2
  | some s =>
    simp only [resolveVersion, hv]
    by_cases hse : s.isEmpty
    · rw [if_pos hse]
      exact (remotePath_tag_and_version args o autoV hauto htag).2
    · rw [if_neg hse]
      show startsWithV (if s = "auto".data then autoV else s) = false
      by_cases hsa : s = "auto".data
      · rw [if_pos hsa]; exact hauto
      · rw [if_neg hsa]; exact hexp s hv

/-- C2 witness: explicit token `1.2.3` with a failing remote query; the
tag conjunct is already universally quantified inside the theorem. -/
theorem version_prefix_invariant_witness :
    (∀ (a : Args) (o' : FetchOutcome) (av : PyStr),
      startsWithV (resolveVersion a o' av).tag_with_v = true) ∧
    startsWithV (resolveVersion ⟨some "1.2.3".data, []⟩ .httpError
      "2024.01.01.1".data).version_no_v = false :=
  version_prefix_invariant ⟨some "1.2.3".data, []⟩ .httpError "2024.01.01.1".data
    (fun s h => by cases h; decide) (by decide) (fun d t h => by cases h)


/-- C7 witness: the theorem evaluated at an absent file. -/
theorem write_fails_iff_absent_witness :
    ((write_config_version none "1".data false = .error .fileNotFound) ↔ (none : Option (List PyStr)) = none) ∧
    detect_config_version none = [] :=
  write_fails_iff_absent none "1".data false

/-- C9 witness: empty `--version` with a failing remote query. -/
theorem empty_version_like_omitted_witness :
    resolveVersion ⟨some [], []⟩ .httpError "2024.01.01.1".data =
      resolveVersion ⟨none, []⟩ .httpError "2024.01.01.1".data ∧
    (resolveVersion ⟨some [], []⟩ .httpError "2024.01.01.1".data).fetchInvoked = true :=
  empty_version_like_omitted [] .httpError "2024.01.01.1".data

/-- C10 witness: a dry-run write against an absent config file. -/
theorem write_dry_run_still_fails_witness :
    write_config_version none "1".data true = .error .fileNotFound :=
  write_dry_run_still_fails "1".data

end Publish
